import Mathlib

/-!
# Verification of the imagga-tagger pipeline (`tag.py`, `extract-tag-json.py`)

A shallow embedding of the repository's data model and operations:
the sqlite storage layer with its per-connection transaction (pending
view vs. committed database), the `Tagger.store` result writer, the
`Tagger.find_images` discoverer together with a small semantics of
Python's `try/except/finally` (needed because the source's `finally`
block touches a possibly-unbound local), the `FrequencyLock` rate gate,
the orchestration in `Tagger.run`, the CLI defaulting in `main`, and the
export script `extract-tag-json.py`.

Confidences are service-defined floats treated as opaque values; we
carry them as exact rationals since the program never computes on them,
only stores and copies them verbatim.
-/

/-- Confidence scores are opaque to the program (stored and copied, never
computed on); modelled as exact rationals. -/
abbrev Confidence := Rat

/-! ## Payload model (`data` returned by the remote service)

`Tagger.store` inspects `data.get('result', {})` and `data['result']['tags']`,
and each tag entry via `tag['tag']['en']` and `tag['confidence']`
(tag.py lines 132, 141-143). -/

/-- One element of `data['result']['tags']`: `tag['tag']['en']` and
`tag['confidence']` (tag.py lines 142-143). -/
structure TagEntry where
  en : String
  confidence : Confidence
  deriving DecidableEq, Repr

/-- The mapping under the payload's `result` key; `tags` is present or
absent (`'tags' not in data.get('result', {})`, tag.py line 132). -/
structure ResultMap where
  tags : Option (List TagEntry)
  deriving DecidableEq, Repr

/-- The JSON response payload: may or may not have a `result` key
(`data.get('result', {})` supplies `{}` when absent). -/
structure Payload where
  result : Option ResultMap
  deriving DecidableEq, Repr

/-- `'tags' in data.get('result', {})` (tag.py line 132): false when the
payload has no `result` key (the default `{}` has no `tags` key). -/
def Payload.hasTags (data : Payload) : Bool :=
  match data.result with
  | none => false
  | some r => r.tags.isSome

/-- `data['result']['tags']` when present, else `[]` (only read by `store`
after the `hasTags` guard passed). -/
def Payload.getTags (data : Payload) : List TagEntry :=
  match data.result with
  | none => []
  | some r => r.tags.getD []

/-! ## Storage model

Schema (tag.py lines 21-39): `photos(id primary key, path unique)`,
`tags(id primary key, tag_name unique)`,
`photo_tag(photo_id, tag_id, confidence)`. -/

/-- A row of `photos` (tag.py lines 21-26). -/
structure PhotoRow where
  id : Nat
  path : String
  deriving DecidableEq, Repr

/-- A row of `tags` (tag.py lines 28-33). -/
structure TagRow where
  id : Nat
  tag_name : String
  deriving DecidableEq, Repr

/-- A row of `photo_tag` (tag.py lines 35-39). -/
structure PhotoTagRow where
  photo_id : Nat
  tag_id : Nat
  confidence : Confidence
  deriving DecidableEq, Repr

/-- A database state: the three tables, plus the next rowids that sqlite
would assign to an `integer primary key` column. -/
structure DB where
  photos : List PhotoRow
  tags : List TagRow
  photo_tag : List PhotoTagRow
  nextPhotoId : Nat
  nextTagId : Nat
  deriving DecidableEq, Repr

/-- The empty database freshly created by `create_tables`. -/
def DB.empty : DB := ⟨[], [], [], 1, 1⟩

/-- Python exceptions the embedded fragments can raise. -/
inductive PyExc where
  /-- `PIL.Image.open` failed on an undecodable file (tag.py line 106). -/
  | imageError
  /-- Reading a local variable before any assignment reached it. -/
  | unboundLocalError
  /-- sqlite3 unique-constraint violation on a plain `insert`. -/
  | integrityError
  /-- Subscripting `None` (`fetchone()[0]` on an empty result). -/
  | noneTypeError
  /-- `asyncio.Lock.release` called on an unlocked lock. -/
  | lockRuntimeError
  deriving DecidableEq, Repr

/-- An sqlite connection: the durably `committed` database and the
connection's current `pending` view (the open implicit transaction).
Statements act on `pending`; `commit` publishes it; a crash before
`commit` leaves only `committed` behind.  `lastrowid` mirrors
`cursor.lastrowid` after an insert. -/
structure Conn where
  committed : DB
  pending : DB
  lastrowid : Nat
  deriving DecidableEq, Repr

/-- A fresh connection on a database (no open writes). -/
def Conn.onDB (db : DB) : Conn := ⟨db, db, 0⟩

/-- The execution state of one `Tagger.store` call: the connection plus
the Python local `photo_id` captured from `cursor.lastrowid` right after
the photo insert (tag.py line 140) — later inserts move `lastrowid`, but
the association inserts use this captured local. -/
structure StoreState where
  conn : Conn
  photo_id : Nat
  deriving DecidableEq, Repr

/-- The steps the tag-writing branch of `Tagger.store` executes, in order
(tag.py lines 137-153). `insertPhotoTag` fuses the
`select id from tags where tag_name = ?; fetchone()[0]` lookup
(lines 146-148) with the `insert into photo_tag` that consumes its
result (lines 149-151). -/
inductive SqlOp where
  /-- `insert into photos (path) values (?)` (lines 137-138): plain insert,
  raises `IntegrityError` if the unique `path` constraint is violated. -/
  | insertPhoto (path : String)
  /-- `photo_id = self.curs.lastrowid` (line 140): captures the rowid into
  a Python local. -/
  | capturePhotoId
  /-- `insert or ignore into tags (tag_name) values (?)` (lines 144-145). -/
  | insertOrIgnoreTag (name : String)
  /-- `select id from tags where tag_name = ?; fetchone()[0]` then
  `insert into photo_tag (photo_id, tag_id, confidence)` using the
  captured local `photo_id` (lines 146-151). -/
  | insertPhotoTag (name : String) (conf : Confidence)
  /-- `self.db.commit()` (line 153). -/
  | commit
  deriving DecidableEq, Repr

/-- Execute one step. Only `commit` touches the durable `committed`
database; all inserts act on the connection's `pending` view. -/
def execOp (st : StoreState) : SqlOp → Except PyExc StoreState
  | .insertPhoto path =>
      let c := st.conn
      if c.pending.photos.any (fun r => r.path = path) then
        .error .integrityError
      else
        let pid := c.pending.nextPhotoId
        .ok { st with conn := { c with
          pending := { c.pending with
            photos := c.pending.photos ++ [⟨pid, path⟩],
            nextPhotoId := pid + 1 },
          lastrowid := pid } }
  | .capturePhotoId => .ok { st with photo_id := st.conn.lastrowid }
  | .insertOrIgnoreTag name =>
      let c := st.conn
      if c.pending.tags.any (fun r => r.tag_name = name) then
        .ok st
      else
        let tid := c.pending.nextTagId
        .ok { st with conn := { c with
          pending := { c.pending with
            tags := c.pending.tags ++ [⟨tid, name⟩],
            nextTagId := tid + 1 },
          lastrowid := tid } }
  | .insertPhotoTag name conf =>
      let c := st.conn
      match c.pending.tags.find? (fun r => r.tag_name = name) with
      | none => .error .noneTypeError
      | some trow =>
          .ok { st with conn := { c with
            pending := { c.pending with
              photo_tag := c.pending.photo_tag ++
                [⟨st.photo_id, trow.id, conf⟩] } } }
  | .commit => .ok { st with conn := { st.conn with committed := st.conn.pending } }

/-- Run a list of steps left to right.  On an exception, return the state
reached at the moment it was raised together with the exception — this is
the state an interrupted execution leaves behind. -/
def runOps (st : StoreState) : List SqlOp → StoreState × Option PyExc
  | [] => (st, none)
  | op :: rest =>
      match execOp st op with
      | .ok st' => runOps st' rest
      | .error e => (st, some e)

/-- The body of the `for tag in data['result']['tags']` loop
(tag.py lines 141-151), flattened: for each tag entry, insert-or-ignore
the tag row, then insert the association row. -/
def tagOps (tags : List TagEntry) : List SqlOp :=
  tags.flatMap fun t => [.insertOrIgnoreTag t.en, .insertPhotoTag t.en t.confidence]

/-- The step sequence of the tag-writing branch of `Tagger.store`
(tag.py lines 137-153): insert the photo, capture its rowid, then for
each tag entry insert-or-ignore the tag and insert the association, and
finally commit. -/
def storeOps (image : String) (tags : List TagEntry) : List SqlOp :=
  .insertPhoto image :: .capturePhotoId :: (tagOps tags ++ [.commit])

/-- `Tagger.store` (tag.py lines 129-154): on a payload without
`result.tags`, log and return the image with the connection untouched;
otherwise run the step sequence and return the image, propagating any
exception raised mid-sequence. -/
def store (c : Conn) (job : String × Payload) : Except PyExc (Conn × String) :=
  let (image, data) := job
  if ¬ data.hasTags then
    .ok (c, image)
  else
    match runOps ⟨c, 0⟩ (storeOps image data.getTags) with
    | (st, none) => .ok (st.conn, image)
    | (_, some e) => .error e

/-! ## Image discovery (`Tagger.find_images`, tag.py lines 92-112)

Files are visited in `os.walk` order; each is filtered by lowercased
`Path.suffix`, then by a point lookup in `photos`, then decode-probed
with `PIL.Image.open` inside a `try/except/finally`. -/

/-- `str.rfind('.')`: index of the last occurrence of a character, if any. -/
def pyRfind (cs : List Char) (c : Char) : Option Nat :=
  ((List.range cs.length).filter fun i => cs.get? i = some c).getLast?

/-- `pathlib.PurePath.suffix` on a final path component: the substring from
the last dot, unless that dot is the first or the last character. -/
def pySuffix (name : String) : String :=
  let cs := name.toList
  match pyRfind cs '.' with
  | some i => if 0 < i ∧ i < cs.length - 1 then String.mk (cs.drop i) else ""
  | none => ""

/-- `str.lower` on one character: ASCII case folding, which is what
`suffix.lower()` amounts to on extension strings compared against the
ASCII literals `'.jpg'` and `'.png'`. -/
def pyCharLower (c : Char) : Char :=
  if 'A' ≤ c ∧ c ≤ 'Z' then Char.ofNat (c.toNat + 32) else c

/-- `str.lower` (applied in tag.py line 96 to `imgpath.suffix`). -/
def pyLower (s : String) : String :=
  String.mk (s.toList.map pyCharLower)

/-- `Tagger.image_is_in_database` (tag.py lines 87-90):
`select 1 from photos where path = ?` on the tagger's cursor, i.e. against
the connection's current view. -/
def image_is_in_database (c : Conn) (image : String) : Bool :=
  c.pending.photos.any fun r => r.path = image

/-- One file produced by the `os.walk` traversal: the directory `root`, the
file name `item`, and whether `PIL.Image.open` succeeds on it (the
filesystem collaborator's decode-probe verdict). -/
structure WalkEntry where
  root : String
  item : String
  imageOpens : Bool
  deriving DecidableEq, Repr

/-- `Path(root) / item` rendered as a string (tag.py line 95). -/
def WalkEntry.imgpath (e : WalkEntry) : String := e.root ++ "/" ++ e.item

/-- Loop control after executing a loop body in Python. -/
inductive Ctl where
  | normal
  | continueLoop
  | raised (e : PyExc)
  deriving DecidableEq, Repr

/-- The decode probe of tag.py lines 103-110:

```
with imgpath.open('rb') as imgfd:
    try:
        img = Image.open(imgfd)
    except Exception as err:
        LOG.warning('failed to open %s: %s', imgpath, err)
        continue
    finally:
        img.close()
```

Python semantics: the `try` body runs; if it raises, the handler runs and
schedules a `continue` as the pending control transfer; then the `finally`
block runs.  The `finally` block evaluates the local `img`, which is bound
only if the assignment in the `try` body completed; evaluating an unbound
local raises `UnboundLocalError`, and an exception raised inside a
`finally` block supersedes the pending control transfer. -/
def decodeProbe (imageOpens : Bool) : Ctl :=
  let body : Except PyExc Unit := if imageOpens then .ok () else .error .imageError
  let imgBound : Bool := match body with | .ok _ => true | .error _ => false
  let pendingCtl : Ctl := match body with | .ok _ => .normal | .error _ => .continueLoop
  let finallyRes : Except PyExc Unit :=
    if imgBound then .ok () else .error .unboundLocalError
  match finallyRes with
  | .ok _ => pendingCtl
  | .error e => .raised e

/-- What the loop body of `find_images` does with one file. -/
inductive FileStep where
  | yielded (p : String)
  | skipped
  | raised (e : PyExc)
  deriving DecidableEq, Repr

/-- The body of `find_images`'s inner loop for one file (tag.py lines
94-112): filter by lowercased suffix, then by the database lookup, then
decode-probe; yield the path if the probe completes normally. -/
def processEntry (c : Conn) (e : WalkEntry) : FileStep :=
  let imgpath := e.imgpath
  if pyLower (pySuffix e.item) ∉ [".jpg", ".png"] then .skipped
  else if image_is_in_database c imgpath then .skipped
  else
    match decodeProbe e.imageOpens with
    | .normal => .yielded imgpath
    | .continueLoop => .skipped
    | .raised exc => .raised exc

/-- `Tagger.find_images` (tag.py lines 92-112) over the walk's file list:
the sequence of yielded paths, and the exception (if any) the generator
raised — a raise ends the sequence, so later files are never visited. -/
def find_images (c : Conn) : List WalkEntry → List String × Option PyExc
  | [] => ([], none)
  | e :: rest =>
      match processEntry c e with
      | .skipped => find_images c rest
      | .yielded p =>
          let (ps, err) := find_images c rest
          (p :: ps, err)
      | .raised exc => ([], some exc)

/-! ## Rate gate (`FrequencyLock`, tag.py lines 42-63) -/

/-- The state of a `FrequencyLock`: the `asyncio.Lock` (locked means the
permit has been consumed and a fetcher may proceed to its remote call),
the `_shutdown` flag, and whether `_task` is set (the ticking coroutine
recorded itself, tag.py line 53). The tick interval is carried but plays
no role in the state transitions. -/
structure FrequencyLock where
  locked : Bool
  shutdown : Bool
  taskSet : Bool
  interval : Int
  deriving DecidableEq, Repr

/-- `FrequencyLock.__init__` (tag.py lines 43-47): a fresh `asyncio.Lock`
(unlocked), `_shutdown = False`, `_task = None`. -/
def FrequencyLock.init (interval : Int) : FrequencyLock :=
  ⟨false, false, false, interval⟩

/-- `asyncio.Lock.release`: raises `RuntimeError` when called on an
unlocked lock; otherwise unlocks it. -/
def lockRelease (l : FrequencyLock) : Except PyExc FrequencyLock :=
  if l.locked then .ok { l with locked := false } else .error .lockRuntimeError

/-- `asyncio.Lock.acquire` observed at a moment the lock is free: succeeds
and marks it held.  When the lock is held the caller suspends (`none`)
until a tick releases it. -/
def lockAcquire (l : FrequencyLock) : Option FrequencyLock :=
  if l.locked then none else some { l with locked := true }

/-- The first statement of `FrequencyLock.run` (tag.py line 53):
`self._task = asyncio.Task.current_task()`. -/
def FrequencyLock.runStart (l : FrequencyLock) : FrequencyLock :=
  { l with taskSet := true }

/-- One iteration of `FrequencyLock.run`'s loop body after the sleep
(tag.py lines 55-57): `if self._lock.locked(): self._lock.release()`.
Returns the new state and whether a release happened. -/
def FrequencyLock.tickBody (l : FrequencyLock) : Except PyExc (FrequencyLock × Bool) :=
  if l.locked then (lockRelease l).map (fun l' => (l', true)) else .ok (l, false)

/-- The loop guard of `FrequencyLock.run` (`while not self._shutdown`,
tag.py line 54). -/
def FrequencyLock.loopContinues (l : FrequencyLock) : Bool := !l.shutdown

/-! ## The fetch operation (`Tagger.tag`, tag.py lines 114-127) -/

/-- The externally visible effects of one `Tagger.tag` call. -/
inductive TagEvent where
  /-- `aiohttp.MultipartWriter('form-data')` (line 116). -/
  | openMultipart
  /-- `image.open('rb')` (line 117). -/
  | openImageFile
  /-- `root.append(fd)` with content disposition `image` (lines 118-119). -/
  | appendPart
  /-- `await self.limiter.acquire()` (line 121). -/
  | acquirePermit
  /-- `self.session.post('https://api.imagga.com/v2/tags', ...)` (lines 123-124). -/
  | postRequest
  /-- `await res.json()` (line 125). -/
  | readJson
  deriving DecidableEq, Repr

/-- `Tagger.tag` for one image (tag.py lines 114-127): the effect trace in
program order, paired with the value it returns — `(image, data)` where
`data` is whatever the remote collaborator responded. -/
def tag (image : String) (response : Payload) : List TagEvent × (String × Payload) :=
  ([.openMultipart, .openImageFile, .appendPart, .acquirePermit, .postRequest, .readJson],
   (image, response))

/-! ## The orchestrator (`Tagger.run`, tag.py lines 156-176) -/

/-- The cleanup-relevant effects of `Tagger.run`. -/
inductive RunEvent where
  /-- `self._shutdown = True` inside `FrequencyLock.stop` (line 60). -/
  | shutdownSignaled
  /-- `await self._task` inside `FrequencyLock.stop` (line 62): waits for
  the ticking coroutine to exit. -/
  | tickTaskAwaited
  /-- `await self.session.close()` (line 176). -/
  | sessionClosed
  deriving DecidableEq, Repr

/-- `FrequencyLock.stop` (tag.py lines 59-63): set `_shutdown`, then await
the ticking task if `_task` is set and clear it. -/
def FrequencyLock.stop (l : FrequencyLock) : FrequencyLock × List RunEvent :=
  let l' := { l with shutdown := true }
  if l.taskSet then ({ l' with taskSet := false }, [.shutdownSignaled, .tickTaskAwaited])
  else (l', [.shutdownSignaled])

/-- The `try/finally` of `Tagger.run` (tag.py lines 172-176): however the
awaited pipeline ends (`.ok` for normal completion, `.error e` when the
steady state raised), the `finally` block runs `await self.limiter.stop()`
then `await self.session.close()`, and the pipeline's outcome propagates
afterwards.  Returns the cleanup event trace, the limiter's final state,
and the propagated outcome. -/
def Tagger.runShutdown (l : FrequencyLock) (streamOutcome : Except PyExc Unit) :
    List RunEvent × FrequencyLock × Except PyExc Unit :=
  let (l', stopEvents) := l.stop
  (stopEvents ++ [.sessionClosed], l', streamOutcome)

/-! ## CLI configuration (`main`, tag.py lines 179-211) -/

/-- Python keyword-argument defaulting for `Tagger.__init__`'s `tasks=1`
(tag.py lines 67-68): the default applies only when the caller does not
pass the keyword at all; an explicitly passed `None` overrides it. -/
def taggerInitTasks (passed : Option (Option Int)) : Option Int :=
  match passed with
  | none => some 1
  | some v => v

/-- `main` builds `Tagger(..., tasks=tasks)` (tag.py lines 203-209): the
`tasks` keyword is always passed, holding the click-parsed value of
`-t (--tasks)` — an option of type int with no declared default (line 187),
so `None` when the flag is omitted. -/
def mainTasks (cliTasks : Option Int) : Option Int :=
  taggerInitTasks (some cliTasks)

/-- Modelled from the aiostream collaborator's contract:
`pipe.map(fn, task_limit=n)` bounds the stage's concurrency by `n`, and
`task_limit=None` imposes no bound at all (unlimited concurrency). -/
inductive TaskLimit where
  | unlimited
  | bounded (n : Int)
  deriving DecidableEq, Repr

/-- The concurrency bound `task_limit=self.tasks` gives the fetch stage
(tag.py line 168). -/
def taskLimitOf : Option Int → TaskLimit
  | none => .unlimited
  | some n => .bounded n

/-- The fetch-stage concurrency bound produced by a `main` invocation with
the given `-t (--tasks)` value (`none` when the flag was omitted). -/
def fetchTaskLimit (cliTasks : Option Int) : TaskLimit :=
  taskLimitOf (mainTasks cliTasks)

/-! ## The optional total-item cap (tag.py lines 161-164) -/

/-- Python truthiness of `self.limit` (`if self.limit:`): `None` and `0`
are falsy, every other int is truthy. -/
def pyTruthy : Option Int → Bool
  | none => false
  | some n => n ≠ 0

/-- `pipe.take(n)` on the embedded stream: the first `n` items. -/
def pipeTake (n : Int) (xs : List String) : List String := xs.take n.toNat

/-- tag.py lines 161-164: `pl = stream.iterate(...)`, then
`if self.limit: pl = pl | pipe.take(self.limit)` — the take stage is
attached only when the configured limit is truthy. -/
def applyLimit (limit : Option Int) (images : List String) : List String :=
  if pyTruthy limit then pipeTake (limit.getD 0) images else images

/-! ## The export utility (`extract-tag-json.py`) -/

/-- The denormalized JSON document built for one photo
(extract-tag-json.py lines 23-26): `{'path': ..., 'tags': dict(tags)}`.
The `tags` field is the Python dict as an ordered association list with
unique keys; `json.dumps` serializes exactly this structure. -/
structure PhotoDoc where
  path : String
  tags : List (String × Confidence)
  deriving DecidableEq, Repr

/-- A row of the destination `photos(path, data)` table. -/
structure DestRow where
  path : String
  data : PhotoDoc
  deriving DecidableEq, Repr

/-- Python `dict(pairs)`: keys are unique; a later pair with an existing
key overwrites the value in place (keeping the key's first-insertion
position); a new key is appended. -/
def pyDict (pairs : List (String × Confidence)) : List (String × Confidence) :=
  pairs.foldl
    (fun acc kv =>
      if acc.any (fun p => p.1 = kv.1) then
        acc.map (fun p => if p.1 = kv.1 then (p.1, kv.2) else p)
      else acc ++ [kv])
    []

/-- The per-photo join (extract-tag-json.py lines 15-20):
`select tag_name, confidence from tags join photo_tag on
(tags.id = photo_tag.tag_id) where photo_tag.photo_id = ?`. -/
def tagsForPhoto (src : DB) (pid : Nat) : List (String × Confidence) :=
  src.photo_tag.filterMap fun pt =>
    if pt.photo_id = pid then
      (src.tags.find? fun t => t.id = pt.tag_id).map fun t => (t.tag_name, pt.confidence)
    else none

/-- The document the export loop builds for one photo row
(extract-tag-json.py lines 22-26). -/
def photoDoc (src : DB) (photo : PhotoRow) : PhotoDoc :=
  ⟨photo.path, pyDict (tagsForPhoto src photo.id)⟩

/-- `insert or ignore into photos (path, data) values (?, ?)` on the
destination (extract-tag-json.py lines 28-29), keyed on the destination
schema's unique `path` constraint: a row is appended only when no row
with that path exists, otherwise the statement is ignored. -/
def insertOrIgnoreDest (dest : List DestRow) (row : DestRow) : List DestRow :=
  if dest.any (fun r => r.path = row.path) then dest else dest ++ [row]

/-- One iteration of the export loop (extract-tag-json.py lines 13-29):
build the photo's document and insert-or-ignore it into the
destination. -/
def exportStep (src : DB) (dest : List DestRow) (photo : PhotoRow) : List DestRow :=
  insertOrIgnoreDest dest ⟨photo.path, photoDoc src photo⟩

/-- The export loop (extract-tag-json.py lines 12-31): for each row of the
source `photos` table, build its document and insert-or-ignore it into
the destination, then commit. -/
def exportPhotos (src : DB) (dest0 : List DestRow) : List DestRow :=
  src.photos.foldl (exportStep src) dest0

/-! ## Helper lemmas -/

/-- Steps other than `commit` leave the durable database untouched. -/
theorem execOp_committed_eq {st st' : StoreState} {op : SqlOp}
    (hop : op ≠ .commit) (h : execOp st op = .ok st') :
    st'.conn.committed = st.conn.committed := by
  cases op with
  | insertPhoto path =>
      by_cases hc : st.conn.pending.photos.any (fun r => r.path = path) <;>
        simp [execOp, hc] at h <;> subst h <;> rfl
  | capturePhotoId => simp [execOp] at h; subst h; rfl
  | insertOrIgnoreTag name =>
      by_cases hc : st.conn.pending.tags.any (fun r => r.tag_name = name) <;>
        simp [execOp, hc] at h <;> subst h <;> rfl
  | insertPhotoTag name conf =>
      cases hf : st.conn.pending.tags.find? (fun r => r.tag_name = name) with
      | none => simp [execOp, hf] at h
      | some trow => simp [execOp, hf] at h; subst h; rfl
  | commit => exact absurd rfl hop

/-- Running a commit-free step list — even one that stops at an
exception — leaves the durable database exactly as it was. -/
theorem runOps_commit_free {ops : List SqlOp} (hops : SqlOp.commit ∉ ops) :
    ∀ st : StoreState, ((runOps st ops).1).conn.committed = st.conn.committed := by
  induction ops with
  | nil => intro st; rfl
  | cons op rest ih =>
      intro st
      have hop : op ≠ .commit := fun he => hops (he ▸ List.mem_cons_self op rest)
      have hrest : SqlOp.commit ∉ rest := fun hm => hops (List.mem_cons_of_mem op hm)
      show ((match execOp st op with
        | .ok st' => runOps st' rest
        | .error e => (st, some e)).1).conn.committed = st.conn.committed
      cases hex : execOp st op with
      | ok st' => simpa [execOp_committed_eq hop hex] using ih hrest st'
      | error e => rfl

/-- Splitting a step-list run at an append boundary. -/
theorem runOps_append (l1 l2 : List SqlOp) (st : StoreState) :
    runOps st (l1 ++ l2) =
      match runOps st l1 with
      | (st1, none) => runOps st1 l2
      | (st1, some e) => (st1, some e) := by
  induction l1 generalizing st with
  | nil => rfl
  | cons op rest ih =>
      show (match execOp st op with
        | .ok st' => runOps st' (rest ++ l2)
        | .error e => (st, some e)) = _
      cases hex : execOp st op with
      | ok st' =>
          simp only [runOps, hex, ih st']
      | error e => simp only [runOps, hex]

/-- Unfolding one successful step of a run. -/
theorem runOps_cons_ok {st st' : StoreState} {op : SqlOp}
    (h : execOp st op = .ok st') (rest : List SqlOp) :
    runOps st (op :: rest) = runOps st' rest := by
  simp only [runOps, h]

/-- Effect of one `insert or ignore into tags`: always succeeds, never
touches the photo or association tables, the captured photo id, or the
durable database; only possibly appends one tag row, after which a row
with the requested name is present. -/
theorem execOp_insertOrIgnoreTag (st : StoreState) (name : String) :
    ∃ st1 : StoreState, execOp st (.insertOrIgnoreTag name) = .ok st1
      ∧ st1.photo_id = st.photo_id
      ∧ st1.conn.committed = st.conn.committed
      ∧ st1.conn.pending.photos = st.conn.pending.photos
      ∧ st1.conn.pending.photo_tag = st.conn.pending.photo_tag
      ∧ (∀ x ∈ st.conn.pending.tags, x ∈ st1.conn.pending.tags)
      ∧ ∃ trow ∈ st1.conn.pending.tags, trow.tag_name = name := by
  by_cases hany : st.conn.pending.tags.any (fun r => r.tag_name = name)
  · refine ⟨st, by simp [execOp, hany], rfl, rfl, rfl, rfl, fun x hx => hx, ?_⟩
    simpa using hany
  · refine ⟨⟨⟨st.conn.committed,
        ⟨st.conn.pending.photos,
         st.conn.pending.tags ++ [⟨st.conn.pending.nextTagId, name⟩],
         st.conn.pending.photo_tag,
         st.conn.pending.nextPhotoId,
         st.conn.pending.nextTagId + 1⟩,
        st.conn.pending.nextTagId⟩,
       st.photo_id⟩, ?_, rfl, rfl, rfl, rfl, ?_, ?_⟩
    · simp [execOp, hany]
    · intro x hx
      exact List.mem_append_left _ hx
    · exact ⟨⟨st.conn.pending.nextTagId, name⟩,
        List.mem_append_right _ (List.mem_singleton.2 rfl), rfl⟩

/-- Effect of one association insert: given that a tag row with the
requested name exists in the pending view, the step succeeds, preserves
everything except the association table, and appends one association row
linking the captured photo id to some tag row carrying that name. -/
theorem execOp_insertPhotoTag (st : StoreState) (name : String) (conf : Confidence)
    (hex : ∃ r ∈ st.conn.pending.tags, r.tag_name = name) :
    ∃ st2 : StoreState, execOp st (.insertPhotoTag name conf) = .ok st2
      ∧ st2.photo_id = st.photo_id
      ∧ st2.conn.committed = st.conn.committed
      ∧ st2.conn.pending.photos = st.conn.pending.photos
      ∧ st2.conn.pending.tags = st.conn.pending.tags
      ∧ (∀ x ∈ st.conn.pending.photo_tag, x ∈ st2.conn.pending.photo_tag)
      ∧ ∃ tid : Nat, (⟨tid, name⟩ : TagRow) ∈ st2.conn.pending.tags
          ∧ (⟨st.photo_id, tid, conf⟩ : PhotoTagRow) ∈ st2.conn.pending.photo_tag := by
  have hsome : (st.conn.pending.tags.find? (fun r => r.tag_name = name)).isSome := by
    rw [List.find?_isSome]
    obtain ⟨r, hr, hname⟩ := hex
    exact ⟨r, hr, by simp [hname]⟩
  obtain ⟨trow, hfind⟩ := Option.isSome_iff_exists.1 hsome
  have hname : trow.tag_name = name := by simpa using List.find?_some hfind
  have hmem : trow ∈ st.conn.pending.tags := List.mem_of_find?_eq_some hfind
  refine ⟨⟨⟨st.conn.committed,
      ⟨st.conn.pending.photos, st.conn.pending.tags,
       st.conn.pending.photo_tag ++ [⟨st.photo_id, trow.id, conf⟩],
       st.conn.pending.nextPhotoId, st.conn.pending.nextTagId⟩,
      st.conn.lastrowid⟩,
     st.photo_id⟩, ?_, rfl, rfl, rfl, rfl, ?_, ?_⟩
  · simp [execOp, hfind]
  · intro x hx
    exact List.mem_append_left _ hx
  · refine ⟨trow.id, ?_, ?_⟩
    · have : (⟨trow.id, name⟩ : TagRow) = trow := by
        cases trow with
        | mk i n => simp at hname; simp [hname]
      exact this ▸ hmem
    · exact List.mem_append_right _ (List.mem_singleton.2 rfl)

/-- Effect of the whole tag loop: it completes without an exception,
preserves the captured photo id, the durable database and the pending
photo table, only grows the pending tag tables, and leaves — for every
processed entry — a tag row with the entry's name together with an
association row linking the captured photo id to it with the entry's
confidence. -/
theorem runOps_tagOps (tags : List TagEntry) :
    ∀ st : StoreState, ∃ st' : StoreState,
      runOps st (tagOps tags) = (st', none)
      ∧ st'.photo_id = st.photo_id
      ∧ st'.conn.committed = st.conn.committed
      ∧ st'.conn.pending.photos = st.conn.pending.photos
      ∧ (∀ x ∈ st.conn.pending.tags, x ∈ st'.conn.pending.tags)
      ∧ (∀ x ∈ st.conn.pending.photo_tag, x ∈ st'.conn.pending.photo_tag)
      ∧ ∀ t ∈ tags, ∃ tid : Nat,
          (⟨tid, t.en⟩ : TagRow) ∈ st'.conn.pending.tags
          ∧ (⟨st.photo_id, tid, t.confidence⟩ : PhotoTagRow) ∈ st'.conn.pending.photo_tag := by
  induction tags with
  | nil =>
      intro st
      exact ⟨st, rfl, rfl, rfl, rfl, fun x hx => hx, fun x hx => hx, by simp⟩
  | cons t ts ih =>
      intro st
      obtain ⟨st1, hrun1, hpid1, hcom1, hph1, hpt1, htags1, hexists1⟩ :=
        execOp_insertOrIgnoreTag st t.en
      obtain ⟨st2, hrun2, hpid2, hcom2, hph2, htags2, hpt2, tid, htid, hassoc⟩ :=
        execOp_insertPhotoTag st1 t.en t.confidence hexists1
      obtain ⟨st', hrun', hpid', hcom', hph', htags', hpt', hall'⟩ := ih st2
      have hsteps : tagOps (t :: ts) =
          .insertOrIgnoreTag t.en :: .insertPhotoTag t.en t.confidence :: tagOps ts := by
        simp [tagOps]
      refine ⟨st', ?_, ?_, ?_, ?_, ?_, ?_, ?_⟩
      · rw [hsteps, runOps_cons_ok hrun1, runOps_cons_ok hrun2, hrun']
      · rw [hpid', hpid2, hpid1]
      · rw [hcom', hcom2, hcom1]
      · rw [hph', hph2, hph1]
      · intro x hx
        exact htags' _ (htags2 ▸ htags1 _ hx)
      · intro x hx
        exact hpt' _ (hpt2 _ (hpt1 ▸ hx))
      · intro t' ht'
        rcases List.mem_cons.1 ht' with he | hts
        · subst he
          refine ⟨tid, htags' _ htid, ?_⟩
          have : st1.photo_id = st.photo_id := hpid1
          exact hpt' _ (this ▸ hassoc)
        · obtain ⟨tid', h1, h2⟩ := hall' t' hts
          have hpid12 : st2.photo_id = st.photo_id := by rw [hpid2, hpid1]
          exact ⟨tid', h1, hpid12 ▸ h2⟩

/-- The tag loop contains no commit. -/
theorem commit_not_mem_tagOps (tags : List TagEntry) : SqlOp.commit ∉ tagOps tags := by
  intro h
  rw [tagOps, List.mem_flatMap] at h
  obtain ⟨t, -, hmem⟩ := h
  simp at hmem

/-- Every proper prefix of the store sequence is commit-free: the single
commit is its very last step. -/
theorem commit_not_mem_take_storeOps (image : String) (tags : List TagEntry)
    (k : Nat) (hk : k < (storeOps image tags).length) :
    SqlOp.commit ∉ (storeOps image tags).take k := by
  have hs : storeOps image tags =
      (SqlOp.insertPhoto image :: SqlOp.capturePhotoId :: tagOps tags)
        ++ [SqlOp.commit] := by
    simp [storeOps]
  have hlen : k ≤ (SqlOp.insertPhoto image :: SqlOp.capturePhotoId :: tagOps tags).length := by
    rw [hs] at hk
    simp only [List.length_append, List.length_cons, List.length_nil] at hk ⊢
    omega
  rw [hs, List.take_append_of_le_length hlen]
  intro h
  have hmem := List.take_subset k _ h
  rcases List.mem_cons.1 hmem with h1 | hmem'
  · exact absurd h1 (by simp)
  · rcases List.mem_cons.1 hmem' with h2 | h3
    · exact absurd h2 (by simp)
    · exact commit_not_mem_tagOps tags h3

/-! ## Claim theorems -/

/-- C1: for every job whose payload carries a tag list at `result.tags`
(and whose path is not yet stored — discovery guarantees this), `store`
succeeds, and afterwards the committed database equals the pending view
and contains the photo row, a tag row for every entry, and an
association row linking the photo to each tag with its confidence — all
published by the single commit that is the final step; and for every
interruption point strictly before that commit, the committed database
is exactly what it was before the call, so no record of the photo is
visible. -/
theorem C1_store_atomic (c : Conn) (image : String) (data : Payload)
    (hTags : data.hasTags = true)
    (hFresh : ∀ r ∈ c.pending.photos, r.path ≠ image) :
    (∃ c' : Conn, store c (image, data) = .ok (c', image)
      ∧ c'.committed = c'.pending
      ∧ ∃ pid : Nat, (⟨pid, image⟩ : PhotoRow) ∈ c'.committed.photos
        ∧ ∀ t ∈ data.getTags, ∃ tid : Nat,
            (⟨tid, t.en⟩ : TagRow) ∈ c'.committed.tags
            ∧ (⟨pid, tid, t.confidence⟩ : PhotoTagRow) ∈ c'.committed.photo_tag)
    ∧ ∀ k : Nat, k < (storeOps image data.getTags).length →
        ((runOps ⟨c, 0⟩ ((storeOps image data.getTags).take k)).1).conn.committed
          = c.committed := by
  constructor
  · have hany : c.pending.photos.any (fun r => r.path = image) = false := by
      rw [List.any_eq_false]
      intro r hr
      simpa using hFresh r hr
    set pid := c.pending.nextPhotoId with hpiddef
    set st1 : StoreState :=
      ⟨⟨c.committed,
        ⟨c.pending.photos ++ [⟨pid, image⟩], c.pending.tags, c.pending.photo_tag,
         pid + 1, c.pending.nextTagId⟩,
        pid⟩, 0⟩ with hst1
    have h1 : execOp ⟨c, 0⟩ (.insertPhoto image) = .ok st1 := by
      simp [execOp, hany, hst1]
    set st2 : StoreState := ⟨st1.conn, pid⟩ with hst2
    have h2 : execOp st1 .capturePhotoId = .ok st2 := rfl
    obtain ⟨st3, hrun3, hpid3, hcom3, hph3, htags3, hpt3, hall3⟩ :=
      runOps_tagOps data.getTags st2
    set st4 : StoreState :=
      ⟨⟨st3.conn.pending, st3.conn.pending, st3.conn.lastrowid⟩, st3.photo_id⟩ with hst4
    have h4 : runOps st3 [SqlOp.commit] = (st4, none) := rfl
    have hrun : runOps ⟨c, 0⟩ (storeOps image data.getTags) = (st4, none) := by
      rw [storeOps, runOps_cons_ok h1, runOps_cons_ok h2, runOps_append, hrun3]
      exact h4
    refine ⟨st4.conn, ?_, rfl, pid, ?_, ?_⟩
    · simp [store, hTags, hrun]
    · show (⟨pid, image⟩ : PhotoRow) ∈ st3.conn.pending.photos
      rw [hph3]
      exact List.mem_append_right _ (List.mem_singleton.2 rfl)
    · intro t ht
      obtain ⟨tid, htid, hassoc⟩ := hall3 t ht
      exact ⟨tid, htid, hassoc⟩
  · intro k hk
    exact runOps_commit_free (commit_not_mem_take_storeOps image data.getTags k hk) ⟨c, 0⟩

/-- Witness for C1 at a concrete input: a fresh database, image
`d/a.jpg`, payload with tags `beach` (confidence 90) and `sand`
(confidence 70). -/
theorem C1_store_atomic_witness :
    (Payload.hasTags ⟨some ⟨some [⟨"beach", 90⟩, ⟨"sand", 70⟩]⟩⟩ = true
      ∧ ∀ r ∈ (Conn.onDB DB.empty).pending.photos, r.path ≠ "d/a.jpg")
    ∧ ((∃ c' : Conn,
        store (Conn.onDB DB.empty)
          ("d/a.jpg", ⟨some ⟨some [⟨"beach", 90⟩, ⟨"sand", 70⟩]⟩⟩) = .ok (c', "d/a.jpg")
        ∧ c'.committed = c'.pending
        ∧ ∃ pid : Nat, (⟨pid, "d/a.jpg"⟩ : PhotoRow) ∈ c'.committed.photos
          ∧ ∀ t ∈ (Payload.mk (some ⟨some [⟨"beach", 90⟩, ⟨"sand", 70⟩]⟩)).getTags,
              ∃ tid : Nat, (⟨tid, t.en⟩ : TagRow) ∈ c'.committed.tags
                ∧ (⟨pid, tid, t.confidence⟩ : PhotoTagRow) ∈ c'.committed.photo_tag)
      ∧ ∀ k : Nat,
          k < (storeOps "d/a.jpg"
                (Payload.mk (some ⟨some [⟨"beach", 90⟩, ⟨"sand", 70⟩]⟩)).getTags).length →
          ((runOps ⟨Conn.onDB DB.empty, 0⟩
              ((storeOps "d/a.jpg"
                (Payload.mk (some ⟨some [⟨"beach", 90⟩, ⟨"sand", 70⟩]⟩)).getTags).take k)).1).conn.committed
            = (Conn.onDB DB.empty).committed) :=
  ⟨⟨rfl, by decide⟩,
    C1_store_atomic (Conn.onDB DB.empty) "d/a.jpg"
      ⟨some ⟨some [⟨"beach", 90⟩, ⟨"sand", 70⟩]⟩⟩ rfl (by decide)⟩

/-- C2: for every job whose payload has no `tags` key under `result`
(including a payload with no `result` at all), `store` performs zero
storage mutations — the connection, both its committed database and its
pending view, is returned exactly as it was, with no commit — and the
ImageRef comes back unchanged. -/
theorem C2_no_tags_no_mutation (c : Conn) (image : String) (data : Payload)
    (h : data.hasTags = false) :
    store c (image, data) = .ok (c, image) := by
  simp [store, h]

/-- Witness for C2: a payload with no `result` key at all, against a
fresh database. -/
theorem C2_no_tags_no_mutation_witness :
    Payload.hasTags ⟨none⟩ = false
    ∧ store (Conn.onDB DB.empty) ("d/a.jpg", ⟨none⟩) =
        .ok (Conn.onDB DB.empty, "d/a.jpg") :=
  ⟨rfl, C2_no_tags_no_mutation (Conn.onDB DB.empty) "d/a.jpg" ⟨none⟩ rfl⟩

/-- C8 counterexample: `store` invoked with a path already present in
`photos` does crash — the plain `insert into photos` hits the unique
constraint and `store` raises `IntegrityError` instead of treating the
duplicate as an idempotency signal. -/
theorem C8_counterexample :
    store (Conn.onDB ⟨[⟨1, "d/a.jpg"⟩], [], [], 2, 1⟩)
      ("d/a.jpg", ⟨some ⟨some [⟨"beach", 90⟩]⟩⟩) = .error .integrityError := by
  rfl

/-- C8 amended: if `store` is invoked with an ImageRef whose path already
exists in the photos table (in the connection's current view) and a
payload that does carry tags, the very first insert violates the unique
`path` constraint and `store` raises `IntegrityError`, which propagates
to the caller. -/
theorem C8_duplicate_path_raises (c : Conn) (image : String) (data : Payload)
    (hTags : data.hasTags = true)
    (hDup : ∃ r ∈ c.pending.photos, r.path = image) :
    store c (image, data) = .error .integrityError := by
  have hany : c.pending.photos.any (fun r => r.path = image) = true := by
    rw [List.any_eq_true]
    obtain ⟨r, hr, hpath⟩ := hDup
    exact ⟨r, hr, by simp [hpath]⟩
  have hexec : execOp ⟨c, 0⟩ (.insertPhoto image) = .error .integrityError := by
    simp [execOp, hany]
  have hrun : runOps ⟨c, 0⟩ (storeOps image data.getTags) =
      (⟨c, 0⟩, some .integrityError) := by
    rw [storeOps]
    show (match execOp ⟨c, 0⟩ (.insertPhoto image) with
      | .ok st' => runOps st' _
      | .error e => (⟨c, 0⟩, some e)) = _
    rw [hexec]
  simp [store, hTags, hrun]

/-- Witness for the amended C8. -/
theorem C8_duplicate_path_raises_witness :
    (Payload.hasTags ⟨some ⟨some [⟨"cat", 5⟩]⟩⟩ = true
      ∧ ∃ r ∈ (Conn.onDB ⟨[⟨1, "x/y.png"⟩], [], [], 2, 1⟩).pending.photos,
          r.path = "x/y.png")
    ∧ store (Conn.onDB ⟨[⟨1, "x/y.png"⟩], [], [], 2, 1⟩)
        ("x/y.png", ⟨some ⟨some [⟨"cat", 5⟩]⟩⟩) = .error .integrityError :=
  ⟨⟨rfl, by decide⟩,
    C8_duplicate_path_raises (Conn.onDB ⟨[⟨1, "x/y.png"⟩], [], [], 2, 1⟩)
      "x/y.png" ⟨some ⟨some [⟨"cat", 5⟩]⟩⟩ rfl (by decide)⟩

/-- C3 (code bug): a file that passes the extension and database filters
but fails to decode does NOT get skipped.  The `except` handler logs and
schedules a `continue`, but the `finally` block then evaluates the local
`img`, which the failed assignment never bound, raising
`UnboundLocalError`; that exception supersedes the `continue`,
propagates out of the generator, and terminates discovery — the later
valid file `photos/e.jpg` is never reached. -/
theorem C3_decode_failure_fatal :
    processEntry (Conn.onDB DB.empty) ⟨"photos", "d.jpg", false⟩ =
      .raised .unboundLocalError
    ∧ find_images (Conn.onDB DB.empty)
        [⟨"photos", "d.jpg", false⟩, ⟨"photos", "e.jpg", true⟩] =
      ([], some .unboundLocalError) := by
  constructor
  · rfl
  · rfl

/-- Inverting a yield: `processEntry` yields a path only for the entry's
own path, only when the lowercased suffix is `.jpg` or `.png`, and only
when the path is not in the database. -/
theorem processEntry_yielded {c : Conn} {e : WalkEntry} {q : String}
    (h : processEntry c e = .yielded q) :
    q = e.imgpath
    ∧ pyLower (pySuffix e.item) ∈ [".jpg", ".png"]
    ∧ image_is_in_database c e.imgpath = false := by
  by_cases h1 : pyLower (pySuffix e.item) ∈ [".jpg", ".png"]
  · by_cases h2 : image_is_in_database c e.imgpath
    · simp [processEntry, h1, h2] at h
    · cases h3 : decodeProbe e.imageOpens with
      | normal =>
          refine ⟨?_, h1, by simpa using h2⟩
          simp [processEntry, h1, h2, h3] at h
          exact h.symm
      | continueLoop => simp [processEntry, h1, h2, h3] at h
      | raised exc => simp [processEntry, h1, h2, h3] at h
  · simp [processEntry, h1] at h

/-- C7: every path the discoverer yields is the path of a visited file
whose lowercased extension is `.jpg` or `.png`, and no yielded path has a
`photos` row in the store — in particular an ImageRef that already has a
StoredPhoto is never re-yielded. -/
theorem C7_discovery_filters (c : Conn) (entries : List WalkEntry) (p : String)
    (hp : p ∈ (find_images c entries).1) :
    (∃ e ∈ entries, p = e.imgpath ∧ pyLower (pySuffix e.item) ∈ [".jpg", ".png"])
    ∧ image_is_in_database c p = false := by
  induction entries with
  | nil => simp [find_images] at hp
  | cons e rest ih =>
      rw [find_images] at hp
      cases hpe : processEntry c e with
      | skipped =>
          rw [hpe] at hp
          obtain ⟨⟨e', he', hpe'⟩, hdb⟩ := ih hp
          exact ⟨⟨e', List.mem_cons_of_mem e he', hpe'⟩, hdb⟩
      | yielded q =>
          rw [hpe] at hp
          obtain ⟨hq, hsuf, hdb⟩ := processEntry_yielded hpe
          rcases List.mem_cons.1 hp with hhead | htail
          · subst hhead
            exact ⟨⟨e, List.mem_cons_self e rest, hq, hsuf⟩, hq ▸ hdb⟩
          · obtain ⟨⟨e', he', hpe'⟩, hdb'⟩ := ih htail
            exact ⟨⟨e', List.mem_cons_of_mem e he', hpe'⟩, hdb'⟩
      | raised exc =>
          rw [hpe] at hp
          simp at hp

/-- Witness for C7: a single valid `a.jpg` under directory `d`, fresh
store. -/
theorem C7_discovery_filters_witness :
    "d/a.jpg" ∈ (find_images (Conn.onDB DB.empty) [⟨"d", "a.jpg", true⟩]).1
    ∧ ((∃ e ∈ [(⟨"d", "a.jpg", true⟩ : WalkEntry)],
          "d/a.jpg" = e.imgpath ∧ pyLower (pySuffix e.item) ∈ [".jpg", ".png"])
        ∧ image_is_in_database (Conn.onDB DB.empty) "d/a.jpg" = false) :=
  ⟨by decide,
    C7_discovery_filters (Conn.onDB DB.empty) [⟨"d", "a.jpg", true⟩] "d/a.jpg"
      (by decide)⟩

/-- C4: the rate gate never double-releases and gates every remote call.
One tick of the ticking process never raises and releases the permit
exactly when the lock is currently held (the release is guarded by
`locked()`, so an unconsumed permit is not released again); `acquire`
blocks while the permit is held and consumes it when free; and in the
fetch operation the permit acquisition precedes the remote POST: every
prefix of `tag`'s effect trace containing the request initiation also
contains the acquisition. -/
theorem C4_rate_gate :
    (∀ l : FrequencyLock,
      l.tickBody = .ok (if l.locked then ({ l with locked := false }, true) else (l, false)))
    ∧ (∀ l : FrequencyLock, l.locked = true → lockAcquire l = none)
    ∧ (∀ l l' : FrequencyLock, lockAcquire l = some l' →
        l.locked = false ∧ l'.locked = true)
    ∧ (∀ (image : String) (response : Payload) (i : Nat),
        TagEvent.postRequest ∈ (tag image response).1.take i →
        TagEvent.acquirePermit ∈ (tag image response).1.take i) := by
  refine ⟨?_, ?_, ?_, ?_⟩
  · intro l
    by_cases h : l.locked <;>
      simp [FrequencyLock.tickBody, lockRelease, h, Except.map]
  · intro l h
    simp [lockAcquire, h]
  · intro l l' h
    by_cases hl : l.locked
    · simp [lockAcquire, hl] at h
    · unfold lockAcquire at h
      rw [if_neg hl] at h
      cases h
      exact ⟨by simpa using hl, rfl⟩
  · intro image response i h
    rcases i with _ | _ | _ | _ | n
    · simp [tag] at h
    · simp [tag, List.take_succ_cons] at h
    · simp [tag, List.take_succ_cons] at h
    · simp [tag, List.take_succ_cons] at h
    · simp [tag, List.take_succ_cons]

/-- Witness for C4 at concrete states and a concrete prefix length: the
held lock blocks `acquire`, and the 5-step prefix of the fetch trace that
initiates the POST contains the acquisition. -/
theorem C4_rate_gate_witness :
    ({ FrequencyLock.init 1 with locked := true }.locked = true
      ∧ lockAcquire { FrequencyLock.init 1 with locked := true } = none)
    ∧ (TagEvent.postRequest ∈ (tag "d/a.jpg" ⟨none⟩).1.take 5
      ∧ TagEvent.acquirePermit ∈ (tag "d/a.jpg" ⟨none⟩).1.take 5) :=
  ⟨⟨rfl, C4_rate_gate.2.1 { FrequencyLock.init 1 with locked := true } rfl⟩,
    ⟨by decide, C4_rate_gate.2.2.2 "d/a.jpg" ⟨none⟩ 5 (by decide)⟩⟩

/-- C5: whatever the awaited pipeline's outcome — normal completion or an
exception — the `finally` block of `Tagger.run` performs both cleanup
actions, in order: it signals the rate gate's shutdown flag and awaits
the ticking task's exit, then closes the remote session; the awaited
ticking loop does exit, its guard being false once shutdown is signaled;
and the pipeline's outcome then propagates unchanged. -/
theorem C5_cleanup_always (l : FrequencyLock) (outcome : Except PyExc Unit)
    (h : l.taskSet = true) :
    Tagger.runShutdown l outcome =
      ([.shutdownSignaled, .tickTaskAwaited, .sessionClosed],
       { l with shutdown := true, taskSet := false }, outcome)
    ∧ FrequencyLock.loopContinues { l with shutdown := true, taskSet := false }
        = false := by
  constructor
  · simp [Tagger.runShutdown, FrequencyLock.stop, h]
  · rfl

/-- Witness for C5: the ticking task has started (so `_task` is set) and
the steady state raised; cleanup still runs stop-then-close and the
exception propagates afterwards. -/
theorem C5_cleanup_always_witness :
    (FrequencyLock.runStart (FrequencyLock.init 1)).taskSet = true
    ∧ (Tagger.runShutdown (FrequencyLock.runStart (FrequencyLock.init 1))
          (.error .imageError) =
        ([.shutdownSignaled, .tickTaskAwaited, .sessionClosed],
         { FrequencyLock.runStart (FrequencyLock.init 1) with
             shutdown := true, taskSet := false },
         .error .imageError)
      ∧ FrequencyLock.loopContinues
          { FrequencyLock.runStart (FrequencyLock.init 1) with
              shutdown := true, taskSet := false } = false) :=
  ⟨rfl, C5_cleanup_always (FrequencyLock.runStart (FrequencyLock.init 1))
    (.error .imageError) rfl⟩

/-- C6 (code bug): with `-t` omitted on the command line, click parses
`tasks` as `None`, and `main` passes `tasks=None` explicitly to
`Tagger(...)`, so the signature default `tasks=1` of `Tagger.__init__`
is bypassed; the fetch stage then receives `task_limit=None`, which in
aiostream means no concurrency bound at all — not a bound of 1.  With
`-t n` supplied the bound is `n`, and the signature default (which only
applies when the keyword is absent) is indeed 1. -/
theorem C6_omitted_tasks_unbounded :
    fetchTaskLimit none = .unlimited
    ∧ fetchTaskLimit none ≠ .bounded 1
    ∧ (∀ n : Int, fetchTaskLimit (some n) = .bounded n)
    ∧ taggerInitTasks none = some 1 :=
  ⟨rfl, by decide, fun n => rfl, rfl⟩

/-- C10: a configured limit of 0, like an unset limit of `None`, is falsy
in `if self.limit:`, so the take stage is never attached and every
discovered image is processed; a non-zero limit is truthy and attaches
the take stage. -/
theorem C10_zero_limit_disables_cap :
    (∀ images : List String,
      applyLimit (some 0) images = images ∧ applyLimit none images = images)
    ∧ (∀ (n : Int) (images : List String), n ≠ 0 →
        applyLimit (some n) images = pipeTake n images) := by
  constructor
  · intro images
    exact ⟨by simp [applyLimit, pyTruthy], by simp [applyLimit, pyTruthy]⟩
  · intro n images hn
    simp [applyLimit, pyTruthy, hn]

/-- Witness for C10's truthy branch at a concrete non-zero limit. -/
theorem C10_zero_limit_disables_cap_witness :
    ((2 : Int) ≠ 0)
    ∧ applyLimit (some 2) ["a", "b", "c"] = pipeTake 2 ["a", "b", "c"] :=
  ⟨by decide, C10_zero_limit_disables_cap.2 2 ["a", "b", "c"] (by decide)⟩

/-- One export step cannot remove a path already present in the
destination. -/
theorem exportStep_any_true {dest : List DestRow} {p : String}
    (h : dest.any (fun r => r.path = p) = true) (src : DB) (photo : PhotoRow) :
    (exportStep src dest photo).any (fun r => r.path = p) = true := by
  unfold exportStep insertOrIgnoreDest
  by_cases hg : dest.any (fun r => r.path = (⟨photo.path, photoDoc src photo⟩ : DestRow).path)
  · simpa [hg] using h
  · simp only [hg, if_false, Bool.false_eq_true, if_neg]
    simp [List.any_append, h]

/-- Once a path is present in the destination, an export step leaves the
set of rows carrying that path exactly as it is (insert-or-ignore never
updates and never duplicates). -/
theorem exportStep_filter_stable {dest : List DestRow} {p : String}
    (h : dest.any (fun r => r.path = p) = true) (src : DB) (photo : PhotoRow) :
    (exportStep src dest photo).filter (fun r => r.path = p)
      = dest.filter (fun r => r.path = p) := by
  unfold exportStep insertOrIgnoreDest
  by_cases hg : dest.any (fun r => r.path = (⟨photo.path, photoDoc src photo⟩ : DestRow).path)
  · simp [hg]
  · have hne : photo.path ≠ p := by
      intro he
      apply hg
      simpa [he] using h
    simp [hg, List.filter_append, hne]

/-- Folding the export over any run of photos preserves the rows of a
path that is already present. -/
theorem exportFold_filter_stable (src : DB) (photos : List PhotoRow) :
    ∀ (dest : List DestRow) (p : String),
      dest.any (fun r => r.path = p) = true →
      (photos.foldl (exportStep src) dest).filter (fun r => r.path = p)
        = dest.filter (fun r => r.path = p) := by
  induction photos with
  | nil => intro dest p _; rfl
  | cons q qs ih =>
      intro dest p h
      rw [List.foldl_cons, ih _ p (exportStep_any_true h src q),
        exportStep_filter_stable h src q]

/-- Folding the export over photos none of which carries path `p` never
introduces a row with path `p`. -/
theorem exportFold_any_false (src : DB) (photos : List PhotoRow) :
    ∀ (dest : List DestRow) (p : String),
      dest.any (fun r => r.path = p) = false →
      (∀ q ∈ photos, q.path ≠ p) →
      (photos.foldl (exportStep src) dest).any (fun r => r.path = p) = false := by
  induction photos with
  | nil => intro dest p h _; exact h
  | cons q qs ih =>
      intro dest p h hq
      rw [List.foldl_cons]
      have hstep : (exportStep src dest q).any (fun r => r.path = p) = false := by
        unfold exportStep insertOrIgnoreDest
        by_cases hg : dest.any (fun r => r.path = (⟨q.path, photoDoc src q⟩ : DestRow).path)
        · simpa [hg] using h
        · have hne : q.path ≠ p := hq q (List.mem_cons_self q qs)
          simp [hg, List.any_append, h, hne]
      exact ih _ p hstep fun q' hq' => hq q' (List.mem_cons_of_mem q hq')

/-- C9: for every photo row of the normalized source store, the export
writes exactly one destination row keyed on the photo's path — holding
the document `{path, tags}` where `tags` maps each associated tag name
to its confidence — when no destination row with that path pre-exists;
and when one does pre-exist, the destination rows with that path are
left exactly unchanged (insert-or-ignore). -/
theorem C9_export (src : DB) (dest0 : List DestRow)
    (hdist : src.photos.Pairwise (fun a b => a.path ≠ b.path))
    (photo : PhotoRow) (hmem : photo ∈ src.photos) :
    (dest0.any (fun r => r.path = photo.path) = false →
      (exportPhotos src dest0).filter (fun r => r.path = photo.path)
        = [⟨photo.path, photoDoc src photo⟩])
    ∧ (dest0.any (fun r => r.path = photo.path) = true →
      (exportPhotos src dest0).filter (fun r => r.path = photo.path)
        = dest0.filter (fun r => r.path = photo.path)) := by
  constructor
  · intro h0
    obtain ⟨pre, post, hsplit⟩ := List.append_of_mem hmem
    have hpre : ∀ q ∈ pre, q.path ≠ photo.path := by
      rw [hsplit] at hdist
      intro q hq
      exact (List.pairwise_append.1 hdist).2.2 q hq photo (List.mem_cons_self _ _)
    rw [exportPhotos, hsplit, List.foldl_append, List.foldl_cons]
    set dest1 := pre.foldl (exportStep src) dest0 with hdest1
    have hany1 : dest1.any (fun r => r.path = photo.path) = false :=
      exportFold_any_false src pre dest0 photo.path h0 hpre
    have hstep : exportStep src dest1 photo =
        dest1 ++ [⟨photo.path, photoDoc src photo⟩] := by
      unfold exportStep insertOrIgnoreDest
      simp [hany1]
    have hany2 : (exportStep src dest1 photo).any (fun r => r.path = photo.path)
        = true := by
      rw [hstep]
      simp [List.any_append]
    rw [exportFold_filter_stable src post _ photo.path hany2, hstep,
      List.filter_append]
    have hfilter1 : dest1.filter (fun r => r.path = photo.path) = [] := by
      rw [List.filter_eq_nil_iff]
      intro r hr
      intro hcontra
      rw [List.any_eq_false] at hany1
      exact hany1 r hr hcontra
    rw [hfilter1]
    simp
  · intro h1
    exact exportFold_filter_stable src src.photos dest0 photo.path h1

/-- Witness for C9 at a concrete source store with two photos (one
carrying two tags, one carrying none) and an empty destination. -/
theorem C9_export_witness :
    ((DB.mk [⟨1, "a.jpg"⟩, ⟨2, "b.png"⟩] [⟨1, "beach"⟩, ⟨2, "sand"⟩]
        [⟨1, 1, 90⟩, ⟨1, 2, 70⟩] 3 3).photos.Pairwise (fun a b => a.path ≠ b.path)
      ∧ (⟨1, "a.jpg"⟩ : PhotoRow) ∈
          (DB.mk [⟨1, "a.jpg"⟩, ⟨2, "b.png"⟩] [⟨1, "beach"⟩, ⟨2, "sand"⟩]
            [⟨1, 1, 90⟩, ⟨1, 2, 70⟩] 3 3).photos
      ∧ ([] : List DestRow).any (fun r => r.path = "a.jpg") = false)
    ∧ (exportPhotos
        (DB.mk [⟨1, "a.jpg"⟩, ⟨2, "b.png"⟩] [⟨1, "beach"⟩, ⟨2, "sand"⟩]
          [⟨1, 1, 90⟩, ⟨1, 2, 70⟩] 3 3) []).filter
        (fun r => r.path = (⟨1, "a.jpg"⟩ : PhotoRow).path)
      = [⟨"a.jpg", photoDoc
          (DB.mk [⟨1, "a.jpg"⟩, ⟨2, "b.png"⟩] [⟨1, "beach"⟩, ⟨2, "sand"⟩]
            [⟨1, 1, 90⟩, ⟨1, 2, 70⟩] 3 3) ⟨1, "a.jpg"⟩⟩] :=
  ⟨⟨by decide, by decide, by decide⟩,
    (C9_export
      (DB.mk [⟨1, "a.jpg"⟩, ⟨2, "b.png"⟩] [⟨1, "beach"⟩, ⟨2, "sand"⟩]
        [⟨1, 1, 90⟩, ⟨1, 2, 70⟩] 3 3) []
      (by decide) ⟨1, "a.jpg"⟩ (by decide)).1 (by decide)⟩
